import Mathlib

/-!
Shallow embedding of the streaming-response relay and provider-failover core of
the repository (files `app/services/transcript_service.py` and
`app/services/plugin_service.py`), together with theorems settling the
specification's claims about it.

Modelling conventions:
* Python strings are Lean `String`s; machine text lengths are `Nat`.
* A stream fragment ("chunk") is modelled by which of the four recognised text
  attributes it carries (`content`, `text`, being a raw `str`, `delta.content`);
  each is an `Option String` (present-with-value or absent).
* The side-channel publisher (`room.local_participant.publish_data`) is modelled
  by an oracle pair `(connected, publishOk) : Bool × Bool`; a call to it is
  recorded as a `Transmission` value.  `send_transcript` wraps everything in a
  catch-all `except Exception` and therefore never raises: it is a total
  function returning an outcome tag plus the list of publish calls it made.
* Exceptions in the wrapper lifecycle (`StopAsyncIteration`, stream errors,
  `__aexit__` of the inner context manager raising) are modelled by explicit
  parameters of the lifecycle function.
-/

/-- Which of the four recognised textual attributes a stream fragment carries.
`content`/`text` model `hasattr(chunk, 'content')` / `hasattr(chunk, 'text')`;
`asString` models `isinstance(chunk, str)` (its value is the string itself);
`delta_content` models `hasattr(chunk, 'delta') and hasattr(chunk.delta, 'content')`. -/
structure Chunk where
  content : Option String
  text : Option String
  asString : Option String
  delta_content : Option String
deriving DecidableEq, Repr

/-- Text extraction from a chunk, in the order the code checks the shapes
(`transcript_service.py` lines 170-178): `content` first, then `text`, then a
raw string, then `delta.content`; absence of all four yields `""`. -/
def extract_chunk_text (c : Chunk) : String :=
  match c.content with
  | some s => s
  | none =>
    match c.text with
    | some s => s
    | none =>
      match c.asString with
      | some s => s
      | none =>
        match c.delta_content with
        | some s => s
        | none => ""

/-- Python `str.isspace` on a single character (the character set stripped by
`str.strip()` with no argument). -/
def pyIsSpace (c : Char) : Bool :=
  let n := c.toNat
  (decide (9 ≤ n) && decide (n ≤ 13)) ||
  (decide (28 ≤ n) && decide (n ≤ 31)) ||
  decide (n = 32) || decide (n = 133) || decide (n = 160) || decide (n = 5760) ||
  (decide (8192 ≤ n) && decide (n ≤ 8202)) ||
  decide (n = 8232) || decide (n = 8233) || decide (n = 8239) ||
  decide (n = 8287) || decide (n = 12288)

/-- Python `not text or not text.strip()`: the string is empty or consists only
of whitespace characters. -/
def pyBlank (t : String) : Bool :=
  t.data.all pyIsSpace

/-- One hexadecimal digit, lowercase, as produced by Python `json.dumps`. -/
def hexDigitChar (n : Nat) : Char :=
  if n < 10 then Char.ofNat (48 + n) else Char.ofNat (87 + n)

/-- Four-digit lowercase hexadecimal rendering of `n < 0x10000`. -/
def hex4 (n : Nat) : String :=
  String.mk [hexDigitChar (n / 4096 % 16), hexDigitChar (n / 256 % 16),
             hexDigitChar (n / 16 % 16), hexDigitChar (n % 16)]

/-- Escaping of one character as done by Python `json.dumps` with its default
`ensure_ascii=True`: `"`/`\` and the named control escapes, `\uXXXX` for the
other characters outside the printable ASCII range 0x20-0x7e, with surrogate
pairs above 0xFFFF. -/
def jsonEscapeChar (c : Char) : String :=
  if c = '"' then "\\\""
  else if c = '\\' then "\\\\"
  else if c = '\x08' then "\\b"
  else if c = '\x09' then "\\t"
  else if c = '\x0a' then "\\n"
  else if c = '\x0c' then "\\f"
  else if c = '\x0d' then "\\r"
  else if c.toNat < 32 ∨ 126 < c.toNat then
    if c.toNat < 65536 then "\\u" ++ hex4 c.toNat
    else
      let v := c.toNat - 65536
      "\\u" ++ hex4 (55296 + v / 1024) ++ "\\u" ++ hex4 (56320 + v % 1024)
  else String.singleton c

/-- Python `json.dumps` escaping applied to a whole string. -/
def jsonEscape (s : String) : String :=
  String.join (s.data.map jsonEscapeChar)

/-- The string `json.dumps({"message": text})` with the default separators: the payload
string built in `send_transcript` before UTF-8 encoding. -/
def jsonDumpsMessage (t : String) : String :=
  "\x7b\"message\": \"" ++ jsonEscape t ++ "\"\x7d"

/-- A record of one call to `room.local_participant.publish_data`. -/
structure Transmission where
  payload : List UInt8
  topic : String
  reliable : Bool
  from_local_participant : Bool
deriving DecidableEq, Repr

/-- Outcome of one `send_transcript` call.  The function never raises: its
`try` block is closed by `except Exception`, which only logs. -/
inductive SendOutcome where
  | skippedEmpty
  | notConnected
  | sent
  | publishFailed
deriving DecidableEq, Repr

/-- Model of `TranscriptForwardingService.send_transcript` (lines 39-75): skip blank
text, skip when the room is not connected, otherwise publish the JSON payload
`{"message": text}` UTF-8 encoded, reliable, on topic `"lk-chat"`, from the
local participant.  `publishOk` tells whether the publish call raised; either
way the exception is swallowed and the call to publish was made. -/
def send_transcript (connected publishOk : Bool) (t : String) :
    SendOutcome × List Transmission :=
  if pyBlank t then (.skippedEmpty, [])
  else if connected = false then (.notConnected, [])
  else
    let payload := (jsonDumpsMessage t).toUTF8.toList
    let tx : Transmission := ⟨payload, "lk-chat", true, true⟩
    if publishOk then (.sent, [tx]) else (.publishFailed, [tx])

/-- Mutable state of a `ContextManagerWrapper` instance. -/
structure WrapperState where
  accumulated_text : String
  last_sent_length : Nat
  forwarded : Bool
deriving DecidableEq, Repr

/-- Initial state per `ContextManagerWrapper.__init__`: empty accumulator, nothing sent,
final flush not yet performed. -/
def initWrapperState : WrapperState :=
  ⟨"", 0, false⟩

/-- Where in the wrapper lifecycle a `send_transcript` call was made. -/
inductive EmitTag where
  | incremental
  | stopFlush
  | exitFlush
deriving DecidableEq, Repr

/-- One snapshot handed to `send_transcript` by the wrapper. -/
structure Emit where
  snapshot : String
  tag : EmitTag
deriving DecidableEq, Repr

/-- Output of processing one chunk in `__anext__`. -/
structure StepOut where
  state : WrapperState
  emits : List Emit
  txs : List Transmission
deriving DecidableEq, Repr

/-- The success path of `ContextManagerWrapper.__anext__` (lines 166-204) on
one chunk: extract the text, and if non-empty append it and send the full
accumulated snapshot when this is the first send (`last_sent_length == 0`) or
at least 30 new characters are pending.  `send_transcript` cannot raise, so the
`last_sent_length` update after it always executes. -/
def wrapper_step (connected publishOk : Bool) (st : WrapperState) (c : Chunk) :
    StepOut :=
  let chunk_text := extract_chunk_text c
  if chunk_text = "" then ⟨st, [], []⟩
  else
    let acc := st.accumulated_text ++ chunk_text
    let new_chars := acc.length - st.last_sent_length
    if st.last_sent_length = 0 ∨ 30 ≤ new_chars then
      ⟨⟨acc, acc.length, st.forwarded⟩, [⟨acc, .incremental⟩],
        (send_transcript connected publishOk acc).2⟩
    else
      ⟨⟨acc, st.last_sent_length, st.forwarded⟩, [], []⟩

/-- Output of iterating the wrapper over a list of chunks: final state, all
snapshots sent, all publish calls, and the chunk values returned to the
consumer (`return chunk`, line 204, returns the original object). -/
structure IterOut where
  state : WrapperState
  emits : List Emit
  txs : List Transmission
  yields : List Chunk
deriving DecidableEq, Repr

/-- Iterating `__anext__` over the chunks the inner stream produces, in arrival
order. -/
def run_iter (connected publishOk : Bool) :
    WrapperState → List Chunk → IterOut
  | st, [] => ⟨st, [], [], []⟩
  | st, c :: cs =>
    let s := wrapper_step connected publishOk st c
    let r := run_iter connected publishOk s.state cs
    ⟨r.state, s.emits ++ r.emits, s.txs ++ r.txs, c :: r.yields⟩

/-- The `except StopAsyncIteration` handler of `__anext__` (lines 206-223):
if there is unsent accumulated text and the final flush has not happened,
send the full snapshot, mark it sent and set `_forwarded`. -/
def stop_flush (connected publishOk : Bool) (st : WrapperState) : StepOut :=
  if (st.accumulated_text ≠ "" ∧
      st.accumulated_text.length > st.last_sent_length) ∧ st.forwarded = false then
    ⟨⟨st.accumulated_text, st.accumulated_text.length, true⟩,
      [⟨st.accumulated_text, .stopFlush⟩],
      (send_transcript connected publishOk st.accumulated_text).2⟩
  else ⟨st, [], []⟩

/-- Repeated hits of the `StopAsyncIteration` handler (a consumer may
call `__anext__` again on an exhausted stream; the inner generator keeps
raising `StopAsyncIteration`). -/
def stop_flush_iter (connected publishOk : Bool) :
    Nat → WrapperState → StepOut
  | 0, st => ⟨st, [], []⟩
  | n + 1, st =>
    let s := stop_flush connected publishOk st
    let r := stop_flush_iter connected publishOk n s.state
    ⟨r.state, s.emits ++ r.emits, s.txs ++ r.txs⟩

/-- Model of `ContextManagerWrapper.__aexit__` (lines 135-157) after the inner context
manager's own `__aexit__` returned normally: if the accumulated text is
non-empty and `_forwarded` is still false, send the full snapshot (note: no
check against `last_sent_length`), record it sent, set `_forwarded`. -/
def exit_flush (connected publishOk : Bool) (st : WrapperState) : StepOut :=
  if st.accumulated_text ≠ "" ∧ st.forwarded = false then
    ⟨⟨st.accumulated_text, st.accumulated_text.length, true⟩,
      [⟨st.accumulated_text, .exitFlush⟩],
      (send_transcript connected publishOk st.accumulated_text).2⟩
  else ⟨st, [], []⟩

/-- Aggregate output of a whole wrapper lifecycle. -/
structure LifeOut where
  state : WrapperState
  emits : List Emit
  txs : List Transmission
deriving DecidableEq, Repr

/-- A whole wrapper lifecycle: iterate over the chunks actually produced, then
hit the `StopAsyncIteration` handler `stopN` times (0 models a stream error or
an abandoned iteration, 1 the normal exhaustion of a `for` loop), then run the
`__aexit__` flush unless the inner `__aexit__` raised (`innerExitOk`). -/
def run_lifecycle (connected publishOk : Bool) (chunks : List Chunk)
    (stopN : Nat) (innerExitOk : Bool) : LifeOut :=
  let i := run_iter connected publishOk initWrapperState chunks
  let s := stop_flush_iter connected publishOk stopN i.state
  let e := if innerExitOk then exit_flush connected publishOk s.state
           else ⟨s.state, [], []⟩
  ⟨e.state, i.emits ++ s.emits ++ e.emits, i.txs ++ s.txs ++ e.txs⟩

/-- Concatenation of the extracted deltas of a chunk list, in arrival order. -/
def concatDeltas (cs : List Chunk) : String :=
  cs.foldr (fun c r => extract_chunk_text c ++ r) ""

/-- String `a` is a prefix of string `b`. -/
def StrPre (a b : String) : Prop :=
  ∃ t, b = a ++ t

/-- A fragment that is a raw Python string. -/
def strChunk (s : String) : Chunk :=
  ⟨none, none, some s, none⟩

/-- The seven-fragment input of the threshold-coalescing scenario: string
deltas of sizes 5,5,5,5,5,5,7. -/
def demoChunks : List Chunk :=
  [strChunk "AAAAA", strChunk "BBBBB", strChunk "CCCCC", strChunk "DDDDD",
   strChunk "EEEEE", strChunk "FFFFF", strChunk "GGGGGGG"]

/-- The extraction priority in the order the claim states it (raw string
first, then `content`, then `text`, then nested `delta.content`), written for
comparison with the code's `extract_chunk_text`. -/
def extractClaimOrder (c : Chunk) : String :=
  match c.asString with
  | some s => s
  | none =>
    match c.content with
    | some s => s
    | none =>
      match c.text with
      | some s => s
      | none =>
        match c.delta_content with
        | some s => s
        | none => ""

/-- The extraction priority as amended: `content` first, then `text`, then a
raw string, then nested `delta.content`; written from the amended claim's
words, for comparison with the code's `extract_chunk_text`. -/
def extractAmendedOrder (c : Chunk) : String :=
  match c.content with
  | some s => s
  | none =>
    match c.text with
    | some s => s
    | none =>
      match c.asString with
      | some s => s
      | none =>
        match c.delta_content with
        | some s => s
        | none => ""

/-- The `tavus` section of the configuration: the credential and the two
identifying parameters, each possibly absent or set to the empty string. -/
structure TavusConfig where
  api_key : Option String
  persona_id : Option String
  replica_id : Option String
deriving DecidableEq, Repr

/-- Python truthiness of an optional string configuration value
(`if not tavus_config.api_key`): absent and empty are both falsy. -/
def truthy : Option String → Bool
  | none => false
  | some s => !(s == "")

/-- State of a `PluginService` instance relevant to arbitration:
`tavus_active` is the arbitrator state (`true` = PrimaryActive,
`false` = FallbackActive); `tts_wrapper` is the `ConditionalTTSWrapper`'s
`_tavus_active` suppression flag if a wrapper is attached. -/
structure PluginState where
  tavus_active : Bool
  tts_wrapper : Option Bool
deriving DecidableEq, Repr

/-- Exception raised by `start_tavus_avatar`. -/
inductive ArbError where
  | configError (msg : String)
  | serviceError (msg : String)
deriving DecidableEq, Repr

/-- Result of a `start_tavus_avatar` call. -/
inductive StartResult where
  | ok
  | raised (e : ArbError)
deriving DecidableEq, Repr

/-- Output of `start_tavus_avatar`: post state, result, and whether the
avatar client construction/startup (the `try` block) was reached. -/
structure StartOut where
  state : PluginState
  result : StartResult
  attempted : Bool
deriving DecidableEq, Repr

/-- Model of `PluginService.start_tavus_avatar` (plugin_service.py lines 304-355):
raise a configuration error if the credential is falsy, or if both the persona
and the replica identity are falsy, before any client is constructed; then
attempt the startup.  On success set `_tavus_active` and, if a TTS wrapper is
attached, its suppression flag to `True`; on any startup exception set both to
`False` and raise a service error.  `startOk` tells whether the construction
plus `avatar_plugin.start` succeeded. -/
def start_tavus_avatar (cfg : TavusConfig) (startOk : Bool)
    (st : PluginState) : StartOut :=
  if truthy cfg.api_key = false then
    ⟨st, .raised (.configError
      "TAVUS_API_KEY is required for avatar functionality"), false⟩
  else if truthy cfg.persona_id = false ∧ truthy cfg.replica_id = false then
    ⟨st, .raised (.configError
      "TAVUS_PERSONA_ID or TAVUS_REPLICA_ID is required for avatar functionality"),
      false⟩
  else if startOk then
    ⟨⟨true, st.tts_wrapper.map (fun _ => true)⟩, .ok, true⟩
  else
    ⟨⟨false, st.tts_wrapper.map (fun _ => false)⟩,
      .raised (.serviceError "Failed to start Tavus avatar"), true⟩

/-- Model of `PluginService.set_tavus_inactive` (lines 357-366): unconditionally clear
`_tavus_active` and, if a TTS wrapper is attached, its suppression flag. -/
def set_tavus_inactive (st : PluginState) : PluginState :=
  ⟨false, st.tts_wrapper.map (fun _ => false)⟩

/-- Reflexivity of `StrPre`. -/
lemma strPre_refl (a : String) : StrPre a a :=
  ⟨"", (String.append_empty a).symm⟩

/-- Extending on the right preserves `StrPre`. -/
lemma strPre_append (a m : String) : StrPre a (a ++ m) :=
  ⟨m, rfl⟩

lemma wrapper_step_acc (conn pub : Bool) (st : WrapperState) (c : Chunk) :
    (wrapper_step conn pub st c).state.accumulated_text =
      st.accumulated_text ++ extract_chunk_text c := by
  unfold wrapper_step
  by_cases h : extract_chunk_text c = ""
  · simp [h]
  · simp only [h, if_false]
    split <;> rfl

lemma wrapper_step_fwd (conn pub : Bool) (st : WrapperState) (c : Chunk) :
    (wrapper_step conn pub st c).state.forwarded = st.forwarded := by
  unfold wrapper_step
  by_cases h : extract_chunk_text c = ""
  · simp [h]
  · simp only [h, if_false]
    split <;> rfl

lemma wrapper_step_emits (conn pub : Bool) (st : WrapperState) (c : Chunk) :
    (wrapper_step conn pub st c).emits = [] ∨
    (wrapper_step conn pub st c).emits =
      [⟨st.accumulated_text ++ extract_chunk_text c, .incremental⟩] := by
  unfold wrapper_step
  by_cases h : extract_chunk_text c = ""
  · simp [h]
  · simp only [h, if_false]
    split
    · right; rfl
    · left; rfl

lemma run_iter_yields (conn pub : Bool) :
    ∀ (cs : List Chunk) (st : WrapperState),
      (run_iter conn pub st cs).yields = cs := by
  intro cs
  induction cs with
  | nil => intro st; rfl
  | cons c cs ih => intro st; simp [run_iter, ih]

lemma run_iter_acc (conn pub : Bool) :
    ∀ (cs : List Chunk) (st : WrapperState),
      (run_iter conn pub st cs).state.accumulated_text =
        st.accumulated_text ++ concatDeltas cs := by
  intro cs
  induction cs with
  | nil => intro st; simp [run_iter, concatDeltas]
  | cons c cs ih =>
      intro st
      simp only [run_iter]
      rw [ih, wrapper_step_acc]
      simp [concatDeltas, String.append_assoc]

lemma run_iter_fwd (conn pub : Bool) :
    ∀ (cs : List Chunk) (st : WrapperState),
      (run_iter conn pub st cs).state.forwarded = st.forwarded := by
  intro cs
  induction cs with
  | nil => intro st; rfl
  | cons c cs ih =>
      intro st
      simp only [run_iter]
      rw [ih, wrapper_step_fwd]

lemma run_iter_tags (conn pub : Bool) :
    ∀ (cs : List Chunk) (st : WrapperState),
      ∀ e ∈ (run_iter conn pub st cs).emits, e.tag = EmitTag.incremental := by
  intro cs
  induction cs with
  | nil => intro st e he; simp [run_iter] at he
  | cons c cs ih =>
      intro st e he
      simp only [run_iter, List.mem_append] at he
      rcases he with he | he
      · rcases wrapper_step_emits conn pub st c with h | h <;> rw [h] at he
        · simp at he
        · simp at he; rw [he]
      · exact ih _ e he

lemma run_iter_emits_extend (conn pub : Bool) :
    ∀ (cs : List Chunk) (st : WrapperState),
      ∀ e ∈ (run_iter conn pub st cs).emits,
        ∃ mid, e.snapshot = st.accumulated_text ++ mid := by
  intro cs
  induction cs with
  | nil => intro st e he; simp [run_iter] at he
  | cons c cs ih =>
      intro st e he
      simp only [run_iter, List.mem_append] at he
      rcases he with he | he
      · rcases wrapper_step_emits conn pub st c with h | h <;> rw [h] at he
        · simp at he
        · simp at he
          exact ⟨extract_chunk_text c, by rw [he]⟩
      · obtain ⟨mid, hm⟩ := ih (wrapper_step conn pub st c).state e he
        rw [wrapper_step_acc] at hm
        exact ⟨extract_chunk_text c ++ mid, by rw [hm, String.append_assoc]⟩

lemma run_iter_emits_pre_final (conn pub : Bool) :
    ∀ (cs : List Chunk) (st : WrapperState),
      ∀ e ∈ (run_iter conn pub st cs).emits,
        StrPre e.snapshot (run_iter conn pub st cs).state.accumulated_text := by
  intro cs
  induction cs with
  | nil => intro st e he; simp [run_iter] at he
  | cons c cs ih =>
      intro st e he
      simp only [run_iter, List.mem_append] at he
      rcases he with he | he
      · rcases wrapper_step_emits conn pub st c with h | h <;> rw [h] at he
        · simp at he
        · simp at he
          simp only [run_iter]
          rw [run_iter_acc, he, ← wrapper_step_acc conn pub st c]
          exact strPre_append _ _
      · simpa only [run_iter] using ih (wrapper_step conn pub st c).state e he

lemma run_iter_pairwise (conn pub : Bool) :
    ∀ (cs : List Chunk) (st : WrapperState),
      List.Pairwise StrPre ((run_iter conn pub st cs).emits.map Emit.snapshot) := by
  intro cs
  induction cs with
  | nil => intro st; simp [run_iter]
  | cons c cs ih =>
      intro st
      simp only [run_iter, List.map_append, List.pairwise_append]
      refine ⟨?_, ih _, ?_⟩
      · rcases wrapper_step_emits conn pub st c with h | h <;> rw [h] <;> simp
      · intro a ha b hb
        rcases wrapper_step_emits conn pub st c with h | h <;> rw [h] at ha
        · simp at ha
        · simp at ha
          simp only [List.mem_map] at hb
          obtain ⟨e, he, hb⟩ := hb
          obtain ⟨mid, hm⟩ := run_iter_emits_extend conn pub cs _ e he
          rw [wrapper_step_acc] at hm
          rw [ha, ← hb, hm, ← wrapper_step_acc conn pub st c]
          exact strPre_append _ _

lemma stop_flush_of_fwd_true (conn pub : Bool) (st : WrapperState)
    (h : st.forwarded = true) : stop_flush conn pub st = ⟨st, [], []⟩ := by
  unfold stop_flush
  rw [if_neg]
  rintro ⟨-, hf⟩
  rw [h] at hf
  exact Bool.noConfusion hf

lemma stop_flush_iter_of_fwd_true (conn pub : Bool) :
    ∀ (n : Nat) (st : WrapperState), st.forwarded = true →
      stop_flush_iter conn pub n st = ⟨st, [], []⟩ := by
  intro n
  induction n with
  | zero => intro st _; rfl
  | succ n ih =>
      intro st h
      simp only [stop_flush_iter, stop_flush_of_fwd_true conn pub st h]
      simp [ih st h]

lemma stop_flush_iter_cases (conn pub : Bool) :
    ∀ (n : Nat) (st : WrapperState),
      (stop_flush_iter conn pub n st = ⟨st, [], []⟩) ∨
      ((stop_flush_iter conn pub n st).emits =
          [⟨st.accumulated_text, .stopFlush⟩] ∧
        (stop_flush_iter conn pub n st).state.forwarded = true ∧
        (stop_flush_iter conn pub n st).state.accumulated_text =
          st.accumulated_text ∧
        st.forwarded = false) := by
  intro n
  induction n with
  | zero => intro st; left; rfl
  | succ n ih =>
      intro st
      by_cases hc : (st.accumulated_text ≠ "" ∧
          st.accumulated_text.length > st.last_sent_length) ∧ st.forwarded = false
      · right
        have hs : stop_flush conn pub st =
            ⟨⟨st.accumulated_text, st.accumulated_text.length, true⟩,
              [⟨st.accumulated_text, .stopFlush⟩],
              (send_transcript conn pub st.accumulated_text).2⟩ := by
          unfold stop_flush; rw [if_pos hc]
        have hrest := stop_flush_iter_of_fwd_true conn pub n
          ⟨st.accumulated_text, st.accumulated_text.length, true⟩ rfl
        simp only [stop_flush_iter, hs, hrest]
        refine ⟨?_, ?_, ?_, hc.2⟩ <;> simp
      · have hs : stop_flush conn pub st = ⟨st, [], []⟩ := by
          unfold stop_flush; rw [if_neg hc]
        rcases ih st with h | h
        · left; simp [stop_flush_iter, hs, h]
        · right
          simp only [stop_flush_iter, hs]
          simpa using h

lemma stop_flush_iter_acc (conn pub : Bool) (n : Nat) (st : WrapperState) :
    (stop_flush_iter conn pub n st).state.accumulated_text =
      st.accumulated_text := by
  rcases stop_flush_iter_cases conn pub n st with h | h
  · rw [h]
  · exact h.2.2.1

lemma exit_flush_of_fwd_true (conn pub : Bool) (st : WrapperState)
    (h : st.forwarded = true) : exit_flush conn pub st = ⟨st, [], []⟩ := by
  unfold exit_flush
  rw [if_neg]
  rintro ⟨-, hf⟩
  rw [h] at hf
  exact Bool.noConfusion hf

lemma exit_flush_fires (conn pub : Bool) (st : WrapperState)
    (hne : st.accumulated_text ≠ "") (hf : st.forwarded = false) :
    exit_flush conn pub st =
      ⟨⟨st.accumulated_text, st.accumulated_text.length, true⟩,
        [⟨st.accumulated_text, .exitFlush⟩],
        (send_transcript conn pub st.accumulated_text).2⟩ := by
  unfold exit_flush
  rw [if_pos ⟨hne, hf⟩]

lemma exit_flush_of_acc_empty (conn pub : Bool) (st : WrapperState)
    (h : st.accumulated_text = "") : exit_flush conn pub st = ⟨st, [], []⟩ := by
  unfold exit_flush
  rw [if_neg]
  rintro ⟨hne, -⟩
  exact hne h

lemma pairwise_append_single (l : List String) (x : String)
    (hl : List.Pairwise StrPre l) (hx : ∀ a ∈ l, StrPre a x) :
    List.Pairwise StrPre (l ++ [x]) := by
  rw [List.pairwise_append]
  exact ⟨hl, by simp, fun a ha b hb => by
    simp only [List.mem_singleton] at hb; rw [hb]; exact hx a ha⟩

/-- Claim C1: over a whole wrapper lifecycle (any fragment sequence, any
number of hits of the `StopAsyncIteration` handler, inner context-manager exit
returning normally), every forwarded snapshot is a string prefix of every
later forwarded snapshot, and when the concatenation of the extracted fragment
deltas is non-empty, the final forwarded snapshot equals exactly that
concatenation in arrival order. -/
theorem c1_snapshot_monotone (conn pub : Bool) (chunks : List Chunk)
    (stopN : Nat) :
    List.Pairwise StrPre
      ((run_lifecycle conn pub chunks stopN true).emits.map Emit.snapshot) ∧
    (concatDeltas chunks ≠ "" →
      ((run_lifecycle conn pub chunks stopN true).emits.map
          Emit.snapshot).getLast? = some (concatDeltas chunks)) := by
  have hacc : (run_iter conn pub initWrapperState chunks).state.accumulated_text
      = concatDeltas chunks := by
    rw [run_iter_acc]
    exact String.empty_append _
  have hfwd : (run_iter conn pub initWrapperState chunks).state.forwarded
      = false := run_iter_fwd conn pub chunks initWrapperState
  have hemits : (run_lifecycle conn pub chunks stopN true).emits =
      (run_iter conn pub initWrapperState chunks).emits ++
      (stop_flush_iter conn pub stopN
        (run_iter conn pub initWrapperState chunks).state).emits ++
      (exit_flush conn pub
        (stop_flush_iter conn pub stopN
          (run_iter conn pub initWrapperState chunks).state).state).emits := by
    simp [run_lifecycle]
  have hpair := run_iter_pairwise conn pub chunks initWrapperState
  have hpre := run_iter_emits_pre_final conn pub chunks initWrapperState
  rcases stop_flush_iter_cases conn pub stopN
      (run_iter conn pub initWrapperState chunks).state with hs | hs
  · -- the StopAsyncIteration handler never flushed; its state is unchanged
    have hse : (stop_flush_iter conn pub stopN
        (run_iter conn pub initWrapperState chunks).state).emits = [] := by
      rw [hs]
    have hss : (stop_flush_iter conn pub stopN
        (run_iter conn pub initWrapperState chunks).state).state =
        (run_iter conn pub initWrapperState chunks).state := by
      rw [hs]
    by_cases hne : (run_iter conn pub
        initWrapperState chunks).state.accumulated_text = ""
    · have he : (exit_flush conn pub
          (stop_flush_iter conn pub stopN
            (run_iter conn pub initWrapperState chunks).state).state).emits
          = [] := by
        rw [hss, exit_flush_of_acc_empty conn pub _ hne]
      rw [hemits, hse, he]
      constructor
      · simpa using hpair
      · intro hcc
        exfalso
        apply hcc
        rw [← hacc]
        exact hne
    · have he : (exit_flush conn pub
          (stop_flush_iter conn pub stopN
            (run_iter conn pub initWrapperState chunks).state).state).emits
          = [⟨(run_iter conn pub initWrapperState chunks).state.accumulated_text,
              .exitFlush⟩] := by
        rw [hss, exit_flush_fires conn pub _ hne hfwd]
      rw [hemits, hse, he]
      constructor
      · simp only [List.append_nil, List.map_append, List.map_cons, List.map_nil]
        exact pairwise_append_single _ _ hpair
          (fun a ha => by
            simp only [List.mem_map] at ha
            obtain ⟨ea, hea, haa⟩ := ha
            rw [← haa]
            exact hpre ea hea)
      · intro _
        simp [hacc]
  · -- the StopAsyncIteration handler flushed once
    obtain ⟨hse, hsf, -, -⟩ := hs
    have he : (exit_flush conn pub
        (stop_flush_iter conn pub stopN
          (run_iter conn pub initWrapperState chunks).state).state).emits
        = [] := by
      rw [exit_flush_of_fwd_true conn pub _ hsf]
    rw [hemits, hse, he]
    constructor
    · simp only [List.append_nil, List.map_append, List.map_cons, List.map_nil]
      exact pairwise_append_single _ _ hpair
        (fun a ha => by
          simp only [List.mem_map] at ha
          obtain ⟨ea, hea, haa⟩ := ha
          rw [← haa]
          exact hpre ea hea)
    · intro _
      simp [hacc]

lemma exit_flush_emits_len (conn pub : Bool) (st : WrapperState) :
    (exit_flush conn pub st).emits.length ≤ 1 := by
  unfold exit_flush
  split <;> simp

/-- Claim C3: for every fragment sequence, any number of
`StopAsyncIteration` hits during teardown, and whether or not the inner
context manager's exit raises (skipping the `__aexit__` flush), at most one
final-flush send (a send tagged other than incremental) occurs per wrapper
instance. -/
theorem c3_at_most_one_final_flush (conn pub : Bool) (chunks : List Chunk)
    (stopN : Nat) (exitOk : Bool) :
    ((run_lifecycle conn pub chunks stopN exitOk).emits.filter
        (fun e => e.tag != EmitTag.incremental)).length ≤ 1 := by
  have hemits : (run_lifecycle conn pub chunks stopN exitOk).emits =
      (run_iter conn pub initWrapperState chunks).emits ++
      ((stop_flush_iter conn pub stopN
          (run_iter conn pub initWrapperState chunks).state).emits ++
        (if exitOk then
            exit_flush conn pub
              (stop_flush_iter conn pub stopN
                (run_iter conn pub initWrapperState chunks).state).state
          else
            ⟨(stop_flush_iter conn pub stopN
                (run_iter conn pub initWrapperState chunks).state).state,
              [], []⟩).emits) := by
    simp [run_lifecycle, List.append_assoc]
  rw [hemits, List.filter_append, List.filter_append]
  have h1 : (run_iter conn pub initWrapperState chunks).emits.filter
      (fun e => e.tag != EmitTag.incremental) = [] := by
    rw [List.filter_eq_nil_iff]
    intro a ha
    simp [run_iter_tags conn pub chunks initWrapperState a ha]
  rw [h1]
  simp only [List.nil_append, List.length_append]
  rcases stop_flush_iter_cases conn pub stopN
      (run_iter conn pub initWrapperState chunks).state with hs | hs
  · have hse : (stop_flush_iter conn pub stopN
        (run_iter conn pub initWrapperState chunks).state).emits = [] := by
      rw [hs]
    rw [hse]
    simp only [List.filter_nil, List.length_nil, Nat.zero_add]
    by_cases hex : exitOk = true
    · simp only [hex, if_true]
      calc ((exit_flush conn pub _).emits.filter _).length
          ≤ (exit_flush conn pub _).emits.length := List.length_filter_le _ _
        _ ≤ 1 := exit_flush_emits_len conn pub _
    · simp [hex]
  · obtain ⟨hse, hsf, -, -⟩ := hs
    rw [hse]
    have he : (if exitOk then
        exit_flush conn pub
          (stop_flush_iter conn pub stopN
            (run_iter conn pub initWrapperState chunks).state).state
      else
        ⟨(stop_flush_iter conn pub stopN
            (run_iter conn pub initWrapperState chunks).state).state,
          [], []⟩).emits = [] := by
      by_cases hex : exitOk = true
      · simp only [hex, if_true]
        rw [exit_flush_of_fwd_true conn pub _ hsf]
      · simp [hex]
    rw [he]
    simp

/-- Claim C2 (amended): with threshold 30 and sequential deltas of sizes
[5,5,5,5,5,5,7], an emit occurs at cumulative length 5 and the next at
cumulative length 37 (the full 37-character snapshot) with no emit in between;
the StopAsyncIteration flush finds nothing unsent and performs no send, but it
also leaves `_forwarded` unset, so the context-manager exit performs one more
redundant full-snapshot send: exactly three sends occur over the whole
lifecycle, with snapshot lengths 5, 37, 37. -/
theorem c2_amended_three_sends :
    (run_lifecycle true true demoChunks 1 true).emits.map
        (fun e => (e.snapshot.length, e.tag)) =
      [(5, .incremental), (37, .incremental), (37, .exitFlush)] := by
  decide

/-- Claim C2, as stated, is false on the code: for the `[5,5,5,5,5,5,7]`
input the whole wrapper lifecycle (iteration plus context-manager exit)
performs three sends, not exactly two — the exit flush checks only
`_forwarded`/non-emptiness, not whether anything is unsent. -/
theorem c2_counterexample :
    ¬ ((run_lifecycle true true demoChunks 1 true).emits.length = 2) := by
  decide

lemma wrapper_step_oracle (conn pub conn' pub' : Bool) (st : WrapperState)
    (c : Chunk) :
    (wrapper_step conn pub st c).state = (wrapper_step conn' pub' st c).state ∧
    (wrapper_step conn pub st c).emits = (wrapper_step conn' pub' st c).emits := by
  unfold wrapper_step
  by_cases h : extract_chunk_text c = ""
  · simp [h]
  · simp only [h, if_false]
    split <;> exact ⟨rfl, rfl⟩

lemma run_iter_oracle (conn pub conn' pub' : Bool) :
    ∀ (cs : List Chunk) (st : WrapperState),
      (run_iter conn pub st cs).state = (run_iter conn' pub' st cs).state ∧
      (run_iter conn pub st cs).emits = (run_iter conn' pub' st cs).emits := by
  intro cs
  induction cs with
  | nil => intro st; exact ⟨rfl, rfl⟩
  | cons c cs ih =>
      intro st
      obtain ⟨hst, hem⟩ := wrapper_step_oracle conn pub conn' pub' st c
      simp only [run_iter]
      constructor
      · rw [hst]
        exact (ih _).1
      · rw [hem, hst]
        rw [(ih _).2]

/-- Claim C6: if every side-channel publish call fails (publish raising, or
the connection down), iteration still yields every original fragment object
unchanged to its consumer, and the wrapper state and the emitted snapshots are
identical to those of a run whose publishes all succeed — no exception from
the publisher surfaces through the stream's iteration interface. -/
theorem c6_publish_failure_isolation (conn pub : Bool) (chunks : List Chunk)
    (h : pub = false ∨ conn = false) :
    (run_iter conn pub initWrapperState chunks).yields = chunks ∧
    (run_iter conn pub initWrapperState chunks).state =
      (run_iter true true initWrapperState chunks).state ∧
    (run_iter conn pub initWrapperState chunks).emits =
      (run_iter true true initWrapperState chunks).emits := by
  exact ⟨run_iter_yields conn pub chunks initWrapperState,
    (run_iter_oracle conn pub true true chunks initWrapperState).1,
    (run_iter_oracle conn pub true true chunks initWrapperState).2⟩

/-- Claim C7: whenever the emission test fires for a fragment (non-empty
delta, and first send or at least 30 pending characters), after the emit step
`last_sent_length` equals the length of the accumulated text, for every
connectivity and publish outcome. -/
theorem c7_marksent_on_emit (conn pub : Bool) (st : WrapperState) (c : Chunk)
    (hne : extract_chunk_text c ≠ "")
    (hfire : st.last_sent_length = 0 ∨
      30 ≤ (st.accumulated_text ++ extract_chunk_text c).length
            - st.last_sent_length) :
    (wrapper_step conn pub st c).state.last_sent_length =
      (st.accumulated_text ++ extract_chunk_text c).length := by
  unfold wrapper_step
  simp only [hne, if_false]
  rw [if_pos hfire]

/-- Claim C4: for every startup outcome of `start_tavus_avatar`
(configuration error, startup failure or success), if a TTS wrapper is
attached and its suppression flag agreed with the arbitrator state beforehand,
then after the call the suppression flag is true iff the arbitrator state is
PrimaryActive (`tavus_active`); and `set_tavus_inactive` unconditionally
forces FallbackActive with the suppression flag false. -/
theorem c4_arbitration_fallback_law (cfg : TavusConfig) (startOk : Bool)
    (st : PluginState) (b : Bool)
    (hw : st.tts_wrapper = some b) (hcons : b = st.tavus_active) :
    ((start_tavus_avatar cfg startOk st).state.tts_wrapper =
        some (start_tavus_avatar cfg startOk st).state.tavus_active) ∧
    (set_tavus_inactive st).tavus_active = false ∧
    (set_tavus_inactive st).tts_wrapper = some false := by
  refine ⟨?_, rfl, by rw [set_tavus_inactive, hw]; rfl⟩
  unfold start_tavus_avatar
  split
  · rw [hw, hcons]
  · split
    · rw [hw, hcons]
    · split <;> (rw [hw]; rfl)

/-- Claim C8: when the credential is falsy, or both the persona and the
replica identity are falsy, `start_tavus_avatar` raises a configuration error
without reaching avatar construction or startup, and the state remains
FallbackActive with the suppression flag false. -/
theorem c8_config_error_precondition (cfg : TavusConfig) (startOk : Bool)
    (hmiss : truthy cfg.api_key = false ∨
      (truthy cfg.persona_id = false ∧ truthy cfg.replica_id = false)) :
    (∃ msg, (start_tavus_avatar cfg startOk ⟨false, some false⟩).result =
        .raised (.configError msg)) ∧
    (start_tavus_avatar cfg startOk ⟨false, some false⟩).attempted = false ∧
    (start_tavus_avatar cfg startOk ⟨false, some false⟩).state =
      ⟨false, some false⟩ := by
  unfold start_tavus_avatar
  rcases hmiss with hk | ⟨hp, hr⟩
  · rw [if_pos hk]
    exact ⟨⟨_, rfl⟩, rfl, rfl⟩
  · by_cases hk : truthy cfg.api_key = false
    · rw [if_pos hk]
      exact ⟨⟨_, rfl⟩, rfl, rfl⟩
    · rw [if_neg hk, if_pos ⟨hp, hr⟩]
      exact ⟨⟨_, rfl⟩, rfl, rfl⟩

/-- Claim C5, as stated, is false on the code: on a fragment that is
simultaneously a raw string (value "A") and carries a `content` attribute
(value "B"), the code extracts the `content` value "B", not the string "A"
that the claimed string-first priority would give. -/
theorem c5_counterexample :
    extract_chunk_text ⟨some "B", none, some "A", none⟩ = "B" ∧
    extractClaimOrder ⟨some "B", none, some "A", none⟩ = "A" ∧
    ¬ (extract_chunk_text ⟨some "B", none, some "A", none⟩ =
        extractClaimOrder ⟨some "B", none, some "A", none⟩) := by
  decide

/-- Claim C5 (amended): extraction follows the priority `content`, then
`text`, then raw string, then nested `delta.content`; when none of the four
shapes is present the delta is empty and processing the fragment changes no
accumulator state, emits nothing and transmits nothing. -/
theorem c5_extraction_priority (c : Chunk)
    (h1 : c.content = none) (h2 : c.text = none)
    (h3 : c.asString = none) (h4 : c.delta_content = none) :
    (∀ c' : Chunk, extract_chunk_text c' = extractAmendedOrder c') ∧
    extract_chunk_text c = "" ∧
    (∀ (conn pub : Bool) (st : WrapperState),
      wrapper_step conn pub st c = ⟨st, [], []⟩) := by
  have hext : extract_chunk_text c = "" := by
    unfold extract_chunk_text
    rw [h1, h2, h3, h4]
  refine ⟨fun c' => rfl, hext, fun conn pub st => ?_⟩
  unfold wrapper_step
  rw [hext]
  simp

/-- Claim C9: a `send_transcript` call with the session connected and
non-blank text performs exactly one publish, whose payload is the UTF-8
encoding of `json.dumps({"message": text})`, reliable, on the fixed topic
"lk-chat", from the local participant, for either publish outcome; with the
session not connected, no publish occurs. -/
theorem c9_wire_contract (t : String) (conn pub : Bool) :
    ((conn = true ∧ pyBlank t = false) →
      (send_transcript conn pub t).2 =
        [⟨(jsonDumpsMessage t).toUTF8.toList, "lk-chat", true, true⟩]) ∧
    (conn = false → (send_transcript conn pub t).2 = []) := by
  constructor
  · rintro ⟨hc, hb⟩
    unfold send_transcript
    rw [hb]
    simp only [if_false, Bool.false_eq_true]
    rw [hc]
    simp only [if_neg (by simp : ¬ (true = false))]
    split <;> rfl
  · intro hc
    unfold send_transcript
    rw [hc]
    by_cases hb : pyBlank t = true
    · rw [hb]; rfl
    · rw [Bool.not_eq_true] at hb
      rw [hb]
      rfl

lemma pyBlank_append (a b : String) (ha : pyBlank a = true)
    (hb : pyBlank b = true) : pyBlank (a ++ b) = true := by
  unfold pyBlank at *
  rw [String.data_append, List.all_append, ha, hb]
  rfl

lemma send_blank (conn pub : Bool) (t : String) (h : pyBlank t = true) :
    send_transcript conn pub t = (.skippedEmpty, []) := by
  unfold send_transcript
  rw [if_pos h]

lemma wrapper_step_blank (conn pub : Bool) (st : WrapperState) (c : Chunk)
    (hst : pyBlank st.accumulated_text = true)
    (hc : pyBlank (extract_chunk_text c) = true) :
    (wrapper_step conn pub st c).txs = [] ∧
    pyBlank (wrapper_step conn pub st c).state.accumulated_text = true := by
  unfold wrapper_step
  by_cases h : extract_chunk_text c = ""
  · simp [h, hst]
  · have hacc : pyBlank (st.accumulated_text ++ extract_chunk_text c) = true :=
      pyBlank_append _ _ hst hc
    simp only [h, if_false]
    split
    · refine ⟨?_, hacc⟩
      show (send_transcript conn pub _).2 = []
      rw [send_blank conn pub _ hacc]
    · exact ⟨rfl, hacc⟩

lemma run_iter_blank (conn pub : Bool) :
    ∀ (cs : List Chunk) (st : WrapperState),
      pyBlank st.accumulated_text = true →
      (∀ c ∈ cs, pyBlank (extract_chunk_text c) = true) →
      (run_iter conn pub st cs).txs = [] ∧
      pyBlank (run_iter conn pub st cs).state.accumulated_text = true := by
  intro cs
  induction cs with
  | nil => intro st hst _; exact ⟨rfl, hst⟩
  | cons c cs ih =>
      intro st hst hcs
      obtain ⟨ht, ha⟩ := wrapper_step_blank conn pub st c hst
        (hcs c (List.mem_cons_self c cs))
      obtain ⟨iht, iha⟩ := ih (wrapper_step conn pub st c).state ha
        (fun c' hc' => hcs c' (List.mem_cons_of_mem c hc'))
      simp only [run_iter]
      exact ⟨by rw [ht, iht]; rfl, iha⟩

lemma stop_flush_blank (conn pub : Bool) (st : WrapperState)
    (hst : pyBlank st.accumulated_text = true) :
    (stop_flush conn pub st).txs = [] ∧
    pyBlank (stop_flush conn pub st).state.accumulated_text = true := by
  unfold stop_flush
  split
  · refine ⟨?_, hst⟩
    show (send_transcript conn pub _).2 = []
    rw [send_blank conn pub _ hst]
  · exact ⟨rfl, hst⟩

lemma stop_flush_iter_blank (conn pub : Bool) :
    ∀ (n : Nat) (st : WrapperState), pyBlank st.accumulated_text = true →
      (stop_flush_iter conn pub n st).txs = [] ∧
      pyBlank (stop_flush_iter conn pub n st).state.accumulated_text = true := by
  intro n
  induction n with
  | zero => intro st hst; exact ⟨rfl, hst⟩
  | succ n ih =>
      intro st hst
      obtain ⟨ht, ha⟩ := stop_flush_blank conn pub st hst
      obtain ⟨iht, iha⟩ := ih (stop_flush conn pub st).state ha
      simp only [stop_flush_iter]
      exact ⟨by rw [ht, iht]; rfl, iha⟩

lemma exit_flush_blank (conn pub : Bool) (st : WrapperState)
    (hst : pyBlank st.accumulated_text = true) :
    (exit_flush conn pub st).txs = [] := by
  unfold exit_flush
  split
  · show (send_transcript conn pub _).2 = []
    rw [send_blank conn pub _ hst]
  · rfl

/-- Claim C10: `send_transcript` on blank text (empty or whitespace-only)
returns before constructing any payload and performs no publish even when the
session is connected; consequently a lifecycle whose every extracted fragment
delta is whitespace-only performs no transmission at all. -/
theorem c10_blank_no_send (conn pub : Bool) (t : String) (chunks : List Chunk)
    (stopN : Nat) (exitOk : Bool) :
    (pyBlank t = true →
      send_transcript conn pub t = (.skippedEmpty, [])) ∧
    ((∀ c ∈ chunks, pyBlank (extract_chunk_text c) = true) →
      (run_lifecycle conn pub chunks stopN exitOk).txs = []) := by
  refine ⟨send_blank conn pub t, fun hcs => ?_⟩
  obtain ⟨iht, iha⟩ := run_iter_blank conn pub chunks initWrapperState rfl hcs
  obtain ⟨sht, sha⟩ := stop_flush_iter_blank conn pub stopN
    (run_iter conn pub initWrapperState chunks).state iha
  have htxs : (run_lifecycle conn pub chunks stopN exitOk).txs =
      (run_iter conn pub initWrapperState chunks).txs ++
      ((stop_flush_iter conn pub stopN
          (run_iter conn pub initWrapperState chunks).state).txs ++
        (if exitOk then
            exit_flush conn pub
              (stop_flush_iter conn pub stopN
                (run_iter conn pub initWrapperState chunks).state).state
          else
            ⟨(stop_flush_iter conn pub stopN
                (run_iter conn pub initWrapperState chunks).state).state,
              [], []⟩).txs) := by
    simp [run_lifecycle, List.append_assoc]
  rw [htxs, iht, sht]
  by_cases hex : exitOk = true
  · simp only [hex, if_true]
    rw [exit_flush_blank conn pub _ sha]
    rfl
  · simp [hex]

/-- Witness for C1 at a concrete one-fragment stream: the final forwarded
snapshot of the lifecycle is the concatenation of the deltas. -/
theorem c1_snapshot_monotone_witness :
    ((run_lifecycle true true [strChunk "hi"] 1 true).emits.map
        Emit.snapshot).getLast? = some (concatDeltas [strChunk "hi"]) :=
  (c1_snapshot_monotone true true [strChunk "hi"] 1).2 (by decide)

/-- Witness for C4 at a concrete successful startup from the initial
fallback-active state. -/
theorem c4_arbitration_fallback_law_witness :
    ((start_tavus_avatar ⟨some "k", some "p", none⟩ true
        ⟨false, some false⟩).state.tts_wrapper =
      some (start_tavus_avatar ⟨some "k", some "p", none⟩ true
        ⟨false, some false⟩).state.tavus_active) ∧
    (set_tavus_inactive ⟨false, some false⟩).tavus_active = false ∧
    (set_tavus_inactive ⟨false, some false⟩).tts_wrapper = some false :=
  c4_arbitration_fallback_law ⟨some "k", some "p", none⟩ true
    ⟨false, some false⟩ false rfl rfl

/-- Witness for the amended C5 at the fragment with no recognised shape. -/
theorem c5_extraction_priority_witness :
    extract_chunk_text ⟨none, none, none, none⟩ = "" ∧
    wrapper_step true true initWrapperState ⟨none, none, none, none⟩ =
      ⟨initWrapperState, [], []⟩ :=
  ⟨(c5_extraction_priority ⟨none, none, none, none⟩ rfl rfl rfl rfl).2.1,
   (c5_extraction_priority ⟨none, none, none, none⟩ rfl rfl rfl rfl).2.2
     true true initWrapperState⟩

/-- Witness for C6 at a concrete one-fragment stream with every publish
raising. -/
theorem c6_publish_failure_isolation_witness :
    (run_iter true false initWrapperState [strChunk "hello"]).yields =
      [strChunk "hello"] ∧
    (run_iter true false initWrapperState [strChunk "hello"]).state =
      (run_iter true true initWrapperState [strChunk "hello"]).state ∧
    (run_iter true false initWrapperState [strChunk "hello"]).emits =
      (run_iter true true initWrapperState [strChunk "hello"]).emits :=
  c6_publish_failure_isolation true false [strChunk "hello"] (Or.inl rfl)

/-- Witness for C7: the first fragment fires the emission test, and even with
the publish failing the sent length is recorded. -/
theorem c7_marksent_on_emit_witness :
    (wrapper_step true false initWrapperState
        (strChunk "hi")).state.last_sent_length =
      (initWrapperState.accumulated_text ++
        extract_chunk_text (strChunk "hi")).length :=
  c7_marksent_on_emit true false initWrapperState (strChunk "hi")
    (by decide) (Or.inl rfl)

/-- Witness for C8 at a configuration with the credential absent but a
persona identity present. -/
theorem c8_config_error_precondition_witness :
    (∃ msg, (start_tavus_avatar ⟨none, some "p", none⟩ true
        ⟨false, some false⟩).result = .raised (.configError msg)) ∧
    (start_tavus_avatar ⟨none, some "p", none⟩ true
        ⟨false, some false⟩).attempted = false ∧
    (start_tavus_avatar ⟨none, some "p", none⟩ true
        ⟨false, some false⟩).state = ⟨false, some false⟩ :=
  c8_config_error_precondition ⟨none, some "p", none⟩ true (Or.inl rfl)

/-- Witness for C9 at connected session and non-blank text. -/
theorem c9_wire_contract_witness :
    (send_transcript true true "hi").2 =
      [⟨(jsonDumpsMessage "hi").toUTF8.toList, "lk-chat", true, true⟩] :=
  (c9_wire_contract "hi" true true).1 ⟨rfl, by decide⟩

/-- Witness for C10 at a whitespace-only text and a whitespace-only stream. -/
theorem c10_blank_no_send_witness :
    send_transcript true true " " = (.skippedEmpty, []) ∧
    (run_lifecycle true true [strChunk " "] 1 true).txs = [] :=
  ⟨(c10_blank_no_send true true " " [strChunk " "] 1 true).1 (by decide),
   (c10_blank_no_send true true " " [strChunk " "] 1 true).2 (by decide)⟩
